import Mathlib

/-!
Shallow embedding of the prompt-store logic of `prompt_manager.py`
(class `PromptManagerApp`).  The UI plumbing (Qt widgets, tray icon,
clipboard) is out of scope; the embedded part is the in-memory list of
prompt records together with its load / save / upsert / delete / search
operations, exactly as the source implements them.

Timestamps are the strings produced by
`datetime.now().strftime("%Y-%m-%d %H:%M:%S")`; the embedding passes the
current clock reading `now` explicitly wherever the source calls
`datetime.now()`.
-/

namespace PromptManager

/-- A prompt record as held in `self.prompts`: a Python dict with keys
`title`, `content`, `created_at`, `modified_at`, all strings. -/
structure Record where
  title : String
  content : String
  created_at : String
  modified_at : String
deriving DecidableEq, Repr

/-- A record as it sits in the JSON file `prompts.json`: the two
timestamp keys may be absent for legacy records (`load_prompts` lines
350-354 backfills them); `title` and `content` are always present. -/
structure RawRecord where
  title : String
  content : String
  created_at : Option String
  modified_at : Option String
deriving DecidableEq, Repr

/-- The observable states of the store file `PROMPT_DB_FILE` as
`load_prompts` distinguishes them:
* `absent`     — `PROMPT_DB_FILE.exists()` is false (line 345);
* `unreadable` — the file exists but `open`/read raises an `OSError`,
  which the `except json.JSONDecodeError` clause (line 356) does not
  catch, so the exception propagates out of `load_prompts`;
* `corrupt`    — the file exists and is readable but `json.load` raises
  `json.JSONDecodeError` (line 356);
* `parsed raws` — `json.load` succeeds and yields a JSON array of
  record objects. -/
inductive FileState where
  | absent : FileState
  | unreadable : FileState
  | corrupt : FileState
  | parsed : List RawRecord → FileState
deriving DecidableEq, Repr

/-- The backfill loop of `load_prompts` (lines 350-354) applied to one
record: a missing `created_at` becomes `now`; a missing `modified_at`
becomes the (possibly just backfilled) `created_at`. -/
def backfill (now : String) (r : RawRecord) : Record :=
  let created := r.created_at.getD now
  { title := r.title
    content := r.content
    created_at := created
    modified_at := r.modified_at.getD created }

/-- Model of `PromptManagerApp.load_prompts` (lines 344-359).  `Except.error ()`
models an exception escaping the method (the app crashes); `Except.ok`
carries the list the method returns.  A missing file returns `[]`
(line 359); a `json.JSONDecodeError` is caught, a warning dialog is
shown and `[]` is returned (lines 356-358); an `OSError` from
`open`/read is not caught and propagates. -/
def load_prompts (now : String) : FileState → Except Unit (List Record)
  | .absent => .ok []
  | .unreadable => .error ()
  | .corrupt => .ok []
  | .parsed raws => .ok (raws.map (backfill now))

/-- Serialization of one in-memory record by `json.dump` in
`save_prompts` (line 375): every key is written out. -/
def toRaw (r : Record) : RawRecord :=
  { title := r.title
    content := r.content
    created_at := some r.created_at
    modified_at := some r.modified_at }

/-- Model of `PromptManagerApp.save_prompts` (lines 361-377): the resulting state
of `PROMPT_DB_FILE` after a successful `json.dump` of `self.prompts`.
The one-generation backup copy (lines 364-371) only affects the sibling
`.json.old.bak` file, never the primary file or the in-memory list, and
no claim concerns it, so it is not modelled; an `IOError` during the
primary write (line 376) only shows a dialog and is likewise outside
the claims. -/
def save_prompts (prompts : List Record) : FileState :=
  .parsed (prompts.map toRaw)

/-- The in-place-update-or-append loop of `save_prompt` (lines 414-426):
the first record whose `title` equals `title` (case-sensitive `==`,
line 416) gets its `content` and `modified_at` replaced (lines 417-418)
and the loop breaks; if no record matches, a new record with
`created_at = modified_at = now` is appended (line 425). -/
def upsertList (title content now : String) : List Record → List Record
  | [] => [{ title := title, content := content,
             created_at := now, modified_at := now }]
  | p :: ps =>
    if p.title = title then
      { p with content := content, modified_at := now } :: ps
    else
      p :: upsertList title content now ps

/-- The store-level effect of `PromptManagerApp.save_prompt`
(lines 400-433) on `self.prompts`.  `title` and `content` are the
already-stripped texts of the two input widgets (lines 401-402).
An empty title or empty content shows a validation dialog and returns
with no mutation (lines 405-410).  The returned `Bool` records whether
the method got past validation, i.e. whether it mutated the list and
called `save_prompts` (line 428). -/
def save_prompt (prompts : List Record) (title content now : String) :
    List Record × Bool :=
  if title = "" then (prompts, false)
  else if content = "" then (prompts, false)
  else (upsertList title content now prompts, true)

/-- The store-level effect of `PromptManagerApp.delete_selected_prompt`
(lines 459-470) once the user has confirmed the dialog with Yes:
`self.prompts` is replaced by the records whose title differs from
`title_to_delete` (line 461); if the length shrank the new list is
persisted and the `Bool` is `true`, otherwise a not-found dialog is
shown and the list is returned unchanged with `false` (lines 462-470). -/
def delete_selected_prompt (prompts : List Record) (title : String) :
    List Record × Bool :=
  let remaining := prompts.filter (fun p => p.title != title)
  if remaining.length < prompts.length then (remaining, true)
  else (prompts, false)

/-- Model of the Python `str.lower()` method: lowercase every character.  (Python folds
the full Unicode range, `Char.toLower` the ASCII range; they agree on
all text the claims touch.) -/
def pyLower (s : String) : String :=
  ⟨s.data.map Char.toLower⟩

/-- Model of the Python `str.strip()` method: drop leading and trailing whitespace. -/
def pyStrip (s : String) : String :=
  ⟨((s.data.dropWhile Char.isWhitespace).reverse.dropWhile
      Char.isWhitespace).reverse⟩

/-- Model of the Python substring test `needle in hay` on strings: `needle` occurs
contiguously in `hay` (the empty needle always does). -/
def containsSub (hay needle : String) : Bool :=
  decide (needle.data <:+: hay.data)

/-- Model of `PromptManagerApp.filter_prompt_list` (lines 379-392) as the list of
records it feeds to the table model: the query is stripped and
lowercased (line 380); an empty result of that clears the filter and
shows all of `self.prompts` (lines 382-385); otherwise the records
whose lowercased title or content contain it are kept (lines 387-390). -/
def filter_prompt_list (prompts : List Record) (query : String) :
    List Record :=
  let search_text := pyLower (pyStrip query)
  if search_text = "" then prompts
  else prompts.filter (fun p =>
    containsSub (pyLower p.title) search_text ||
    containsSub (pyLower p.content) search_text)

/-- The state an operation of the app acts on: the in-memory list
`self.prompts` and the store file. -/
structure AppState where
  prompts : List Record
  file : FileState
deriving DecidableEq, Repr

/-- The store operations a user action triggers, each carrying the
clock reading `now` at which it runs:
* `load` — `self.prompts = self.load_prompts()` (line 168 / 240 / 429 / 464);
* `save t c now` — `save_prompt` with stripped title `t` and content `c`:
  validate, upsert, `save_prompts`, reload (lines 400-433);
* `del t now` — a confirmed `delete_selected_prompt` of title `t`:
  filter, and on a shrink `save_prompts` and reload (lines 459-470). -/
inductive Op where
  | load : String → Op
  | save : String → String → String → Op
  | del : String → String → Op
deriving DecidableEq, Repr

/-- The common tail of `save_prompt` (lines 428-429) and of a
successful `delete_selected_prompt` (lines 463-464): write the mutated
list to the file, then reload `self.prompts` from it. -/
def persistAndReload (ps : List Record) (now : String) :
    Except Unit AppState :=
  match load_prompts now (save_prompts ps) with
  | .ok ps2 => .ok { prompts := ps2, file := save_prompts ps }
  | .error e => .error e

/-- One user-triggered store operation on the whole app state.
`Except.error ()` is an exception escaping the handler (only possible
when `load_prompts` hits an unreadable file). -/
def step (s : AppState) : Op → Except Unit AppState
  | .load now =>
    match load_prompts now s.file with
    | .ok ps => .ok { prompts := ps, file := s.file }
    | .error e => .error e
  | .save title content now =>
    match save_prompt s.prompts title content now with
    | (_, false) => .ok s
    | (ps, true) => persistAndReload ps now
  | .del title now =>
    match delete_selected_prompt s.prompts title with
    | (_, false) => .ok s
    | (ps, true) => persistAndReload ps now

/-- The spec's data-model invariant on a record list: no two records
share the same title. -/
def UniqueTitles (prompts : List Record) : Prop :=
  (prompts.map Record.title).Nodup

/-- The invariant on the file: whatever a successful parse would yield
has pairwise-distinct titles (the other file states load to `[]` or to
an exception). -/
def FileUnique : FileState → Prop
  | .parsed raws => (raws.map RawRecord.title).Nodup
  | _ => True

/-- The title-uniqueness invariant on the whole app state. -/
def Inv (s : AppState) : Prop :=
  UniqueTitles s.prompts ∧ FileUnique s.file

instance : DecidablePred UniqueTitles := fun ps =>
  inferInstanceAs (Decidable (ps.map Record.title).Nodup)

instance : DecidablePred FileUnique := fun fs =>
  match fs with
  | .parsed raws => inferInstanceAs (Decidable (raws.map RawRecord.title).Nodup)
  | .absent => inferInstanceAs (Decidable True)
  | .unreadable => inferInstanceAs (Decidable True)
  | .corrupt => inferInstanceAs (Decidable True)

instance : DecidablePred Inv := fun s =>
  inferInstanceAs (Decidable (UniqueTitles s.prompts ∧ FileUnique s.file))

/-! ### Helper lemmas (shared; not tied to a single claim) -/

/-- Backfilling a record that was serialized with both timestamps
present gives the record back unchanged. -/
theorem backfill_toRaw (now : String) (r : Record) :
    backfill now (toRaw r) = r := rfl

/-- Saving then loading returns exactly the in-memory list. -/
theorem load_save_aux (now : String) (prompts : List Record) :
    load_prompts now (save_prompts prompts) = .ok prompts := by
  simp only [save_prompts, load_prompts, List.map_map]
  congr 1
  simp [Function.comp_def, backfill_toRaw]

/-- Titles after an upsert: unchanged when the title was already
present, extended by the new title otherwise. -/
theorem map_title_upsertList (title content now : String)
    (prompts : List Record) :
    (upsertList title content now prompts).map Record.title =
      if title ∈ prompts.map Record.title then prompts.map Record.title
      else prompts.map Record.title ++ [title] := by
  induction prompts with
  | nil => simp [upsertList]
  | cons p ps ih =>
    by_cases h : p.title = title
    · simp [upsertList, h]
    · by_cases hm : title ∈ ps.map Record.title
      · simp [upsertList, h, ih, hm, Ne.symm h]
      · simp [upsertList, h, ih, hm, Ne.symm h]

/-- Upsert preserves pairwise-distinct titles. -/
theorem uniqueTitles_upsertList (title content now : String)
    (prompts : List Record) (h : UniqueTitles prompts) :
    UniqueTitles (upsertList title content now prompts) := by
  unfold UniqueTitles at *
  rw [map_title_upsertList]
  by_cases hm : title ∈ prompts.map Record.title
  · simpa [hm] using h
  · simp [hm, List.nodup_append, h]

/-- Filtering preserves pairwise-distinct titles. -/
theorem uniqueTitles_filter (prompts : List Record) (f : Record → Bool)
    (h : UniqueTitles prompts) : UniqueTitles (prompts.filter f) :=
  h.sublist ((List.filter_sublist prompts).map Record.title)

/-- Titles survive backfilling. -/
theorem map_title_backfill (now : String) (raws : List RawRecord) :
    (raws.map (backfill now)).map Record.title =
      raws.map RawRecord.title := by
  simp [List.map_map]
  exact fun a _ => rfl

/-- Titles survive serialization. -/
theorem map_title_toRaw (prompts : List Record) :
    (prompts.map toRaw).map RawRecord.title =
      prompts.map Record.title := by
  simp [List.map_map]
  exact fun a _ => rfl

/-- Appending a genuinely new record via `upsertList`. -/
theorem upsertList_of_not_mem (title content now : String)
    (prompts : List Record) (h : title ∉ prompts.map Record.title) :
    upsertList title content now prompts =
      prompts ++ [{ title := title, content := content,
                    created_at := now, modified_at := now }] := by
  induction prompts with
  | nil => rfl
  | cons p ps ih =>
    simp only [List.map_cons, List.mem_cons, not_or] at h
    simp [upsertList, Ne.symm h.1, ih h.2]

/-- `upsertList` updates the first record carrying the title in place. -/
theorem upsertList_first_match (title content now : String)
    (l1 l2 : List Record) (r : Record)
    (hfirst : ∀ q ∈ l1, q.title ≠ title) (hr : r.title = title) :
    upsertList title content now (l1 ++ r :: l2) =
      l1 ++ { r with content := content, modified_at := now } :: l2 := by
  induction l1 with
  | nil => simp [upsertList, hr]
  | cons p ps ih =>
    have hp : p.title ≠ title := hfirst p (List.mem_cons_self p ps)
    simp [upsertList, hp, ih (fun q hq => hfirst q (List.mem_cons_of_mem p hq))]

/-- Persisting and reloading always succeeds and hands back exactly the
list that was written. -/
theorem persistAndReload_eq (ps : List Record) (now : String) :
    persistAndReload ps now =
      .ok { prompts := ps, file := save_prompts ps } := by
  unfold persistAndReload
  rw [load_save_aux]

/-- A successful load of a title-unique file yields a title-unique
list. -/
theorem uniqueTitles_of_load (now : String) (fs : FileState)
    (ps : List Record) (hf : FileUnique fs)
    (hl : load_prompts now fs = .ok ps) : UniqueTitles ps := by
  cases fs with
  | absent =>
    injection hl with h
    subst h
    simp [UniqueTitles]
  | unreadable => exact Except.noConfusion hl
  | corrupt =>
    injection hl with h
    subst h
    simp [UniqueTitles]
  | parsed raws =>
    injection hl with h
    subst h
    unfold UniqueTitles
    rw [map_title_backfill]
    exact hf

/-- Writing a title-unique list produces a title-unique file. -/
theorem fileUnique_save (ps : List Record) (h : UniqueTitles ps) :
    FileUnique (save_prompts ps) := by
  simp only [save_prompts, FileUnique]
  rw [map_title_toRaw]
  exact h

/-- In a title-unique store that contains the title, filtering it out
drops exactly one record. -/
theorem length_filter_title_of_mem (prompts : List Record)
    (title : String) (hu : UniqueTitles prompts)
    (hmem : title ∈ prompts.map Record.title) :
    (prompts.filter (fun p => p.title != title)).length + 1 =
      prompts.length := by
  induction prompts with
  | nil => simp at hmem
  | cons p ps ih =>
    simp only [UniqueTitles, List.map_cons, List.nodup_cons] at hu
    by_cases h : p.title = title
    · have hnone : ∀ q ∈ ps, (q.title != title) = true := by
        intro q hq
        refine bne_iff_ne.mpr fun e => hu.1 ?_
        rw [h, ← e]
        exact List.mem_map_of_mem Record.title hq
      have hb : (p.title != title) = false := by simp [h]
      have hlen := List.filter_length_eq_length.mpr hnone
      simp [List.filter_cons, hb, hlen]
    · have hmem2 : title ∈ ps.map Record.title := by
        rcases List.mem_cons.mp hmem with he | hm
        · exact absurd he.symm h
        · exact hm
      have ihh := ih hu.2 hmem2
      have hb : (p.title != title) = true := bne_iff_ne.mpr h
      simp only [List.filter_cons, hb, if_pos, List.length_cons]
      omega

/-! ### Claim theorems -/

/-- Claim C1: title uniqueness is an invariant of the store: from a
state (memory and file) with pairwise-distinct titles, every operation
— a load, a validated save/upsert, a confirmed delete — that completes
without an exception yields a state with pairwise-distinct titles. -/
theorem step_preserves_title_uniqueness (s s2 : AppState) (op : Op)
    (hinv : Inv s) (hstep : step s op = .ok s2) : Inv s2 := by
  obtain ⟨hm, hf⟩ := hinv
  cases op with
  | load now =>
    simp only [step] at hstep
    cases hl : load_prompts now s.file with
    | error e =>
      rw [hl] at hstep
      exact Except.noConfusion hstep
    | ok ps =>
      rw [hl] at hstep
      have h2 : ({ prompts := ps, file := s.file } : AppState) = s2 :=
        Except.ok.inj hstep
      subst h2
      exact ⟨uniqueTitles_of_load now s.file ps hf hl, hf⟩
  | save title content now =>
    simp only [step] at hstep
    cases hsp : save_prompt s.prompts title content now with
    | mk ps b =>
      rw [hsp] at hstep
      cases b with
      | false =>
        have h2 : s = s2 := Except.ok.inj hstep
        subst h2
        exact ⟨hm, hf⟩
      | true =>
        have hstep2 : persistAndReload ps now = Except.ok s2 := hstep
        rw [persistAndReload_eq] at hstep2
        have h2 : ({ prompts := ps, file := save_prompts ps } : AppState)
            = s2 := Except.ok.inj hstep2
        subst h2
        have hps : ps = upsertList title content now s.prompts := by
          by_cases h1 : title = ""
          · simp [save_prompt, h1] at hsp
          · by_cases h2 : content = ""
            · simp [save_prompt, h1, h2] at hsp
            · simp [save_prompt, h1, h2] at hsp
              exact hsp.symm
        have hu : UniqueTitles ps :=
          hps ▸ uniqueTitles_upsertList title content now s.prompts hm
        exact ⟨hu, fileUnique_save ps hu⟩
  | del title now =>
    simp only [step] at hstep
    cases hsp : delete_selected_prompt s.prompts title with
    | mk ps b =>
      rw [hsp] at hstep
      cases b with
      | false =>
        have h2 : s = s2 := Except.ok.inj hstep
        subst h2
        exact ⟨hm, hf⟩
      | true =>
        have hstep2 : persistAndReload ps now = Except.ok s2 := hstep
        rw [persistAndReload_eq] at hstep2
        have h2 : ({ prompts := ps, file := save_prompts ps } : AppState)
            = s2 := Except.ok.inj hstep2
        subst h2
        have hps : ps = s.prompts.filter (fun p => p.title != title) := by
          unfold delete_selected_prompt at hsp
          by_cases hlt :
              (s.prompts.filter (fun p => p.title != title)).length <
                s.prompts.length
          · rw [if_pos hlt] at hsp
            simp at hsp
            exact hsp.symm
          · rw [if_neg hlt] at hsp
            simp at hsp
        have hu : UniqueTitles ps :=
          hps ▸ uniqueTitles_filter s.prompts _ hm
        exact ⟨hu, fileUnique_save ps hu⟩

/-- Concrete instance of C1: saving "Greeting" into the empty store
with an absent file yields a title-unique state. -/
theorem step_preserves_title_uniqueness_witness :
    Inv { prompts := [{ title := "Greeting", content := "Hello",
                        created_at := "t0", modified_at := "t0" }],
          file := .parsed [{ title := "Greeting", content := "Hello",
                             created_at := some "t0",
                             modified_at := some "t0" }] } :=
  step_preserves_title_uniqueness
    { prompts := [], file := FileState.absent }
    { prompts := [{ title := "Greeting", content := "Hello",
                    created_at := "t0", modified_at := "t0" }],
      file := .parsed [{ title := "Greeting", content := "Hello",
                         created_at := some "t0",
                         modified_at := some "t0" }] }
    (.save "Greeting" "Hello" "t0")
    ⟨by decide, by decide⟩ rfl

/-- Claim C4: in a title-unique store, a confirmed delete of a present
title succeeds and the record count decreases by exactly one, and a
confirmed delete of an absent title reports not-found and leaves the
store unchanged. -/
theorem delete_selected_prompt_count (prompts : List Record)
    (title : String) (hu : UniqueTitles prompts) :
    (title ∈ prompts.map Record.title →
      (delete_selected_prompt prompts title).2 = true ∧
      (delete_selected_prompt prompts title).1.length + 1 =
        prompts.length) ∧
    (title ∉ prompts.map Record.title →
      delete_selected_prompt prompts title = (prompts, false)) := by
  constructor
  · intro hmem
    have hlen := length_filter_title_of_mem prompts title hu hmem
    have hlt : (prompts.filter (fun p => p.title != title)).length <
        prompts.length := by omega
    unfold delete_selected_prompt
    rw [if_pos hlt]
    exact ⟨rfl, hlen⟩
  · intro hmem
    have hall : ∀ q ∈ prompts, (q.title != title) = true := by
      intro q hq
      exact bne_iff_ne.mpr fun e =>
        hmem (e ▸ List.mem_map_of_mem Record.title hq)
    have hlen := List.filter_length_eq_length.mpr hall
    unfold delete_selected_prompt
    rw [if_neg (by omega)]

/-- Concrete instance of C4: deleting the present title "a" from a
one-record store succeeds and shrinks the count from 1 to 0. -/
theorem delete_selected_prompt_count_witness :
    (delete_selected_prompt
      [{ title := "a", content := "b",
         created_at := "t", modified_at := "t" }] "a").2 = true ∧
    (delete_selected_prompt
      [{ title := "a", content := "b",
         created_at := "t", modified_at := "t" }] "a").1.length + 1 =
      1 :=
  (delete_selected_prompt_count
    [{ title := "a", content := "b",
       created_at := "t", modified_at := "t" }] "a" (by decide)).1
    (by decide)

/-- Claim C6 (counterexample): the query " " is non-empty, yet on the
store holding one record (title "a", content "b") the search returns
that record even though " " is not a case-insensitive substring of "a"
or of "b" — because the source strips the query before matching. -/
theorem filter_prompt_list_whitespace_query_cex :
    (" " : String) ≠ "" ∧
    filter_prompt_list
      [{ title := "a", content := "b",
         created_at := "t", modified_at := "t" }] " " =
      [{ title := "a", content := "b",
         created_at := "t", modified_at := "t" }] ∧
    ¬ ((pyLower " ").data <:+: (pyLower "a").data) ∧
    ¬ ((pyLower " ").data <:+: (pyLower "b").data) :=
  ⟨by decide, by decide, by decide, by decide⟩

/-- Claim C6 (amended): the query is first stripped of surrounding
whitespace and lowercased; if the result is empty (in particular for
the empty query) the full store is returned; otherwise exactly those
records are returned for which the stripped query is a
case-insensitive substring of the record's title or of its content. -/
theorem filter_prompt_list_trimmed_query_spec (prompts : List Record)
    (q : String) (r : Record) :
    (pyLower (pyStrip q) = "" → filter_prompt_list prompts q = prompts) ∧
    (pyLower (pyStrip q) ≠ "" →
      (r ∈ filter_prompt_list prompts q ↔
        r ∈ prompts ∧
          ((pyLower (pyStrip q)).data <:+: (pyLower r.title).data ∨
           (pyLower (pyStrip q)).data <:+: (pyLower r.content).data))) := by
  constructor
  · intro h
    simp [filter_prompt_list, h]
  · intro h
    simp [filter_prompt_list, h, containsSub, List.mem_filter,
      decide_eq_true_eq, Bool.or_eq_true]

/-- Concrete instance of the amended C6: the query "A" (stripping to
the non-empty "a") finds the record titled "ba" because "a" is a
case-insensitive substring of its title. -/
theorem filter_prompt_list_trimmed_query_spec_witness :
    ({ title := "ba", content := "x",
       created_at := "t", modified_at := "t" } : Record) ∈
      filter_prompt_list
        [{ title := "ba", content := "x",
           created_at := "t", modified_at := "t" }] "A" ↔
    ({ title := "ba", content := "x",
       created_at := "t", modified_at := "t" } : Record) ∈
      [({ title := "ba", content := "x",
          created_at := "t", modified_at := "t" } : Record)] ∧
      ((pyLower (pyStrip "A")).data <:+: (pyLower "ba").data ∨
       (pyLower (pyStrip "A")).data <:+: (pyLower "x").data) :=
  (filter_prompt_list_trimmed_query_spec
    [{ title := "ba", content := "x",
       created_at := "t", modified_at := "t" }] "A"
    { title := "ba", content := "x",
      created_at := "t", modified_at := "t" }).2 (by decide)

/-- Claim C2: for every store and every non-empty title not already
present and every non-empty content, the upsert performed by
`save_prompt` appends exactly one new record whose `created_at` equals
its `modified_at` (both set to `now`), increasing the record count by
exactly one, and the store is persisted. -/
theorem save_prompt_new_title_appends (prompts : List Record)
    (title content now : String) (ht : title ≠ "") (hc : content ≠ "")
    (habs : title ∉ prompts.map Record.title) :
    save_prompt prompts title content now =
      (prompts ++ [{ title := title, content := content,
                     created_at := now, modified_at := now }], true) ∧
    (save_prompt prompts title content now).1.length =
      prompts.length + 1 := by
  have h := upsertList_of_not_mem title content now prompts habs
  constructor
  · simp [save_prompt, ht, hc, h]
  · simp [save_prompt, ht, hc, h]

/-- Concrete instance of C2: saving the fresh title "Greeting" into the
empty store appends exactly that one record, timestamped `t0` twice. -/
theorem save_prompt_new_title_appends_witness :
    save_prompt [] "Greeting" "Hello" "t0" =
      ([{ title := "Greeting", content := "Hello",
          created_at := "t0", modified_at := "t0" }], true) :=
  (save_prompt_new_title_appends [] "Greeting" "Hello" "t0"
    (by decide) (by decide) (by simp)).1

/-- Claim C3: for every store containing a record whose title is a
case-sensitive exact match (here: the first such record, the one the
source's loop hits), `save_prompt` with non-empty title and content
updates only that record's `content` and `modified_at`; its
`created_at` and title, the record count, and every other record are
unchanged. -/
theorem save_prompt_existing_title_updates_in_place
    (l1 l2 : List Record) (r : Record) (title content now : String)
    (ht : title ≠ "") (hc : content ≠ "") (hr : r.title = title)
    (hfirst : ∀ q ∈ l1, q.title ≠ title) :
    save_prompt (l1 ++ r :: l2) title content now =
      (l1 ++ { r with content := content, modified_at := now } :: l2,
       true) ∧
    (save_prompt (l1 ++ r :: l2) title content now).1.length =
      (l1 ++ r :: l2).length := by
  have h := upsertList_first_match title content now l1 l2 r hfirst hr
  constructor
  · simp [save_prompt, ht, hc, h]
  · simp [save_prompt, ht, hc, h]

/-- Concrete instance of C3 (the spec's own example): upserting
("Greeting", "Hi") into a store holding ("Greeting", "Hello") leaves one
record with content "Hi", `created_at` unchanged, `modified_at`
updated. -/
theorem save_prompt_existing_title_updates_in_place_witness :
    save_prompt [{ title := "Greeting", content := "Hello",
                   created_at := "t0", modified_at := "t0" }]
        "Greeting" "Hi" "t1" =
      ([{ title := "Greeting", content := "Hi",
          created_at := "t0", modified_at := "t1" }], true) :=
  (save_prompt_existing_title_updates_in_place [] []
    { title := "Greeting", content := "Hello",
      created_at := "t0", modified_at := "t0" }
    "Greeting" "Hi" "t1" (by decide) (by decide) rfl
    (fun q hq => absurd hq (List.not_mem_nil q))).1

/-- Claim C5: saving the store and loading it back yields an equivalent
record set: the same records, titles, contents and both timestamps
included, in the same order. -/
theorem save_then_load_roundtrip (prompts : List Record) (now : String) :
    load_prompts now (save_prompts prompts) = .ok prompts :=
  load_save_aux now prompts

/-- Claim C7 (counterexample): a store file that exists but is
unreadable does not make `load_prompts` return the empty store — the
uncaught `OSError` escapes instead, so the claim's "corrupt or
unreadable → empty store, no crash" fails on the unreadable case. -/
theorem load_prompts_unreadable_cex :
    load_prompts "2024-01-01 00:00:00" FileState.unreadable ≠
      Except.ok ([] : List Record) :=
  fun h => Except.noConfusion h

/-- Claim C7 (amended): a missing store file loads as the empty store,
and a store file whose contents fail to parse as JSON is reported and
loads as the empty store with no partial recovery; an unreadable file,
by contrast, raises an exception that `load_prompts` does not catch. -/
theorem load_prompts_missing_or_corrupt_empty (now : String) :
    load_prompts now FileState.corrupt = .ok [] ∧
    load_prompts now FileState.absent = .ok [] ∧
    load_prompts now FileState.unreadable = .error () :=
  ⟨rfl, rfl, rfl⟩

/-- Claim C8: a save with an empty (stripped) title or empty content is
rejected by validation: the in-memory store and the persisted file are
exactly what they were before the call. -/
theorem save_prompt_empty_rejected_no_mutation (s : AppState)
    (title content now : String) (h : title = "" ∨ content = "") :
    step s (.save title content now) = .ok s := by
  rcases h with h | h
  · simp [step, save_prompt, h]
  · by_cases ht : title = "" <;> simp [step, save_prompt, h, ht]

/-- Concrete instance of C8: saving an empty title over a one-record
store leaves the state untouched. -/
theorem save_prompt_empty_rejected_no_mutation_witness :
    step { prompts := [{ title := "a", content := "b",
                         created_at := "t", modified_at := "t" }],
           file := FileState.absent }
        (.save "" "content" "t1") =
      .ok { prompts := [{ title := "a", content := "b",
                          created_at := "t", modified_at := "t" }],
            file := FileState.absent } :=
  save_prompt_empty_rejected_no_mutation _ "" "content" "t1" (Or.inl rfl)

/-- Claim C9: loading a parsed file backfills missing timestamps:
titles and contents are kept, a present timestamp is kept, a missing
`created_at` becomes `now`, a missing `modified_at` becomes the (possibly
backfilled) `created_at`, and a record missing both gets
`created_at = modified_at = now`. -/
theorem load_prompts_backfills_timestamps (now : String)
    (raws : List RawRecord) :
    load_prompts now (.parsed raws) = .ok (raws.map (backfill now)) ∧
    ∀ raw : RawRecord,
      (backfill now raw).title = raw.title ∧
      (backfill now raw).content = raw.content ∧
      (∀ d, raw.created_at = some d → (backfill now raw).created_at = d) ∧
      (raw.created_at = none → (backfill now raw).created_at = now) ∧
      (∀ m, raw.modified_at = some m →
        (backfill now raw).modified_at = m) ∧
      (raw.created_at = none → raw.modified_at = none →
        (backfill now raw).created_at = now ∧
        (backfill now raw).modified_at = now) := by
  refine ⟨rfl, fun raw => ?_⟩
  cases hcr : raw.created_at <;> cases hmo : raw.modified_at <;>
    simp [backfill, hcr, hmo]

/-- Concrete instance of C9: a never-timestamped legacy record has both
dates seeded to `now`, hence equal. -/
theorem load_prompts_backfills_timestamps_witness :
    (backfill "T" { title := "a", content := "b",
                    created_at := none, modified_at := none }).created_at
      = "T" ∧
    (backfill "T" { title := "a", content := "b",
                    created_at := none, modified_at := none }).modified_at
      = "T" :=
  ((load_prompts_backfills_timestamps "T" []).2
    { title := "a", content := "b",
      created_at := none, modified_at := none }).2.2.2.2.2 rfl rfl

/-- Claim C10: a confirmed delete removes every record whose title
equals the selected title — even in a store that, contrary to the
uniqueness invariant, holds several such records, none survives. -/
theorem delete_selected_prompt_removes_all_with_title
    (prompts : List Record) (title : String) :
    ∀ r ∈ (delete_selected_prompt prompts title).1, r.title ≠ title := by
  intro r hr
  unfold delete_selected_prompt at hr
  by_cases h :
      (prompts.filter (fun p => p.title != title)).length < prompts.length
  · rw [if_pos h] at hr
    simpa [bne_iff_ne] using (List.mem_filter.mp hr).2
  · rw [if_neg h] at hr
    have hlen : (prompts.filter (fun p => p.title != title)).length =
        prompts.length := by
      have hle := List.length_filter_le (fun p => p.title != title) prompts
      omega
    have hall := List.filter_length_eq_length.mp hlen
    simpa [bne_iff_ne] using hall r hr

/-- Concrete instance of C10: deleting "dup" from a store holding two
records titled "dup" around one titled "other" leaves only the latter,
whose title indeed differs from "dup". -/
theorem delete_selected_prompt_removes_all_with_title_witness :
    ({ title := "other", content := "y",
       created_at := "t", modified_at := "t" } : Record).title ≠ "dup" :=
  delete_selected_prompt_removes_all_with_title
    [{ title := "dup", content := "x",
       created_at := "t", modified_at := "t" },
     { title := "other", content := "y",
       created_at := "t", modified_at := "t" },
     { title := "dup", content := "z",
       created_at := "t", modified_at := "t" }] "dup"
    { title := "other", content := "y",
      created_at := "t", modified_at := "t" } (by decide)

end PromptManager

